import Mathlib

/-!
Verification of the tls-vuln-checker probing engine.

The Go sources are shallowly embedded:
* bytes are `Nat` values (the `uint8` invariant `< 256` is irrelevant to the
  proofs except where noted);
* a peer byte stream is a `List Nat`: a read that would go past its end is
  the read failing;
* network writes, deadline updates and the external STARTTLS collaborator
  are oracle parameters (`Option String` error messages, mirroring Go's
  `err.Error()` strings, `none` being a nil error);
* `binary.Write` of big-endian integers becomes explicit byte splitting with
  `% 2 ^ w` truncation where the Go code casts;
* `crypto/rand` output is a `List Nat` parameter (the only entropy input).
-/

/-- Big-endian encoding of a `uint16` value (two bytes), as written by
`binary.Write(buf, binary.BigEndian, x)` for `x : uint16`. -/
def u16be (n : Nat) : List Nat := [n / 256 % 256, n % 256]

/-- The 16-bit body length declared in a record's 5-byte header
(header bytes 3 and 4, big-endian). -/
def recordDeclaredLen (m : List Nat) : Nat := 256 * m.getD 3 0 + m.getD 4 0

/-- The number of body bytes that actually follow the 5-byte record header. -/
def recordBodyLen (m : List Nat) : Nat := m.length - 5

/-- The 24-bit length declared in a ClientHello's handshake header
(bytes 6-8 of the record, after the record header and the handshake type). -/
def hsDeclaredLen (m : List Nat) : Nat :=
  65536 * m.getD 6 0 + 256 * m.getD 7 0 + m.getD 8 0

/-- The number of handshake-payload bytes that actually follow the 4-byte
handshake header (record byte 9 onward). -/
def hsBodyLen (m : List Nat) : Nat := m.length - 9

namespace Ccs

/-- Verdict strings from `ccs.go` (`notVulnerable`, `vulnerable`, `testFailed`). -/
def notVulnerable : String := "no"

def vulnerable : String := "yes"

def testFailed : String := "error"

/-- TLS record types from `ccs.go`. -/
def recordTypeChangeCipherSpec : Nat := 20

def recordTypeAlert : Nat := 21

def recordTypeHandshake : Nat := 22

def handshakeTypeClientHello : Nat := 1

def handshakeTypeServerHelloDone : Nat := 14

def alertLevelFatal : Nat := 2

def alertUnexpectedMessage : Nat := 10

/-- `tlsRecordHeader` from `ccs.go`: {Type uint8, Version uint16, Length uint16}. -/
structure tlsRecordHeader where
  type : Nat
  version : Nat
  length : Nat
deriving DecidableEq

/-- `readTLSRecord` from `ccs.go`: `binary.Read` of the 5-byte big-endian header,
then `io.ReadFull` of `Length` body bytes.  Returns the header, the body and the
unread remainder of the stream; `none` is a read error (stream too short). -/
def readTLSRecord (s : List Nat) : Option (tlsRecordHeader × List Nat × List Nat) :=
  match s with
  | t :: v1 :: v2 :: l1 :: l2 :: rest =>
    let len := 256 * l1 + l2
    if len ≤ rest.length then
      some (⟨t, 256 * v1 + v2, len⟩, rest.take len, rest.drop len)
    else none
  | _ => none

theorem readTLSRecord_rest_length {s : List Nat} {hd : tlsRecordHeader}
    {body rest : List Nat} (h : readTLSRecord s = some (hd, body, rest)) :
    rest.length < s.length := by
  match s with
  | [] => simp [readTLSRecord] at h
  | [_] => simp [readTLSRecord] at h
  | [_, _] => simp [readTLSRecord] at h
  | [_, _, _] => simp [readTLSRecord] at h
  | [_, _, _, _] => simp [readTLSRecord] at h
  | t :: v1 :: v2 :: l1 :: l2 :: r =>
    simp only [readTLSRecord] at h
    split at h
    · cases h
      simp only [List.length_drop, List.length_cons]
      omega
    · cases h

/-- Outcome of the ServerHelloDone wait loop in `CCSInjection.Check`
(ccs.go lines 89-106).  `panicOOB` marks the Go expression `body[0]`
evaluated on an empty body slice, which panics at runtime. -/
inductive SHDOutcome where
  | found (rest : List Nat)
  | readErr
  | panicOOB
deriving DecidableEq

/-- The `for !serverHelloDone` loop of `CCSInjection.Check`: read a record;
on read error the check fails; records whose type is not Handshake are
discarded; for Handshake records the first body byte is inspected
(`handshakeType := body[0]`) and compared with ServerHelloDone. -/
def awaitSHD (s : List Nat) : SHDOutcome :=
  match h : readTLSRecord s with
  | none => .readErr
  | some (hd, body, rest) =>
    if hd.type ≠ recordTypeHandshake then awaitSHD rest
    else
      match body with
      | [] => .panicOOB
      | b :: _ =>
        if b = handshakeTypeServerHelloDone then .found rest else awaitSHD rest
termination_by s.length
decreasing_by
  all_goals exact readTLSRecord_rest_length h

/-- Result of one attempted record read, abstracting the connection. -/
inductive ReadResult where
  | ok (header : tlsRecordHeader) (body : List Nat)
  | fail
deriving DecidableEq

/-- What the tail of `CCSInjection.Check` produces: the `Vulnerable` field,
the returned Go error (`none` is nil), and whether the second
ChangeCipherSpec message was written to the connection. -/
structure PhaseResult where
  vulnerable : String
  errReturned : Option String
  secondCCSSent : Bool
deriving DecidableEq

/-- ccs.go lines 118-172, the part of `CCSInjection.Check` that runs after
ServerHelloDone was observed and the first ChangeCipherSpec was written:
set a 1-second read deadline, attempt a read (success means not vulnerable),
otherwise clear the deadline, write the second ChangeCipherSpec, and classify
the final read: failure or a fatal/unexpected-message alert is not
vulnerable, everything else is vulnerable.  The deadline updates and the
second write are oracles returning an optional error, as in the Go code. -/
def afterServerHelloDone (setDeadlineErr : Option String) (read1 : ReadResult)
    (clearDeadlineErr : Option String) (write2Err : Option String)
    (read2 : ReadResult) : PhaseResult :=
  match setDeadlineErr with
  | some e => ⟨testFailed, some e, false⟩
  | none =>
    match read1 with
    | .ok _ _ => ⟨notVulnerable, none, false⟩
    | .fail =>
      match clearDeadlineErr with
      | some e => ⟨testFailed, some e, false⟩
      | none =>
        match write2Err with
        | some e => ⟨testFailed, some e, false⟩
        | none =>
          match read2 with
          | .fail => ⟨notVulnerable, none, true⟩
          | .ok hd body =>
            if hd.type = recordTypeAlert then
              if 2 ≤ body.length ∧ body.getD 0 0 = alertLevelFatal ∧
                  body.getD 1 0 = alertUnexpectedMessage then
                ⟨notVulnerable, none, true⟩
              else ⟨vulnerable, none, true⟩
            else ⟨vulnerable, none, true⟩

/-- The 14-entry cipher-suite list of ccs.go `buildClientHello`. -/
def cipherSuites : List Nat :=
  [0xc02b, 0xc02f, 0xc02c, 0xc030, 0xcca9, 0xcca8, 0xc013, 0xc014,
   0x009c, 0x009d, 0x002f, 0x0035, 0xc012, 0x000a]

/-- `buildClientHello` from ccs.go: handshake type, hand-constant 24-bit
handshake length bytes 0x00 0x00 0x35, client version TLS 1.2, the 32
random bytes (a parameter here), empty session id, the computed 16-bit
suite-list byte length, the suites big-endian, one null compression method,
an empty extensions block; then the record header with the computed
16-bit record length (`uint16(clientHello.Len())`). -/
def buildClientHello (random : List Nat) : List Nat :=
  let clientHello :=
    [handshakeTypeClientHello] ++ [0x00, 0x00, 0x35] ++ [0x03, 0x03] ++ random ++
      [0x00] ++ u16be ((cipherSuites.length * 2) % 65536) ++
      (cipherSuites.flatMap fun s => u16be s) ++ [0x01, 0x00] ++ [0x00, 0x00]
  [recordTypeHandshake] ++ [0x03, 0x01] ++ u16be (clientHello.length % 65536) ++
    clientHello

/-- The `ccsMessage` constant of `CCSInjection.Check`. -/
def ccsMessage : List Nat := [recordTypeChangeCipherSpec, 0x03, 0x01, 0x00, 0x01, 0x01]

end Ccs

namespace Heartbleed

/-- Verdict strings from `heartbleed.go`. -/
def notApplicable : String := "n/a"

def notVulnerable : String := "no"

def vulnerable : String := "yes"

def testFailed : String := "error"

/-- The digit values of `fmt.Sprintf("%X", data)`: two hex digits per byte.
Source bytes are `uint8`, so `b / 16` and `b % 16` are exactly the two
printed digits. -/
def hexNibbles (data : List Nat) : List Nat :=
  data.flatMap fun b => [b / 16, b % 16]

/-- Digit values of the hex-string literal "000F000101" compared by
`checkExtension` (the heartbeat-capability marker). -/
def markerNibbles : List Nat := [0, 0, 0, 15, 0, 0, 0, 1, 0, 1]

/-- Digit values of the hex-string literal "0E000000" compared by
`checkExtension` (the flight-end / ServerHelloDone marker). -/
def flightNibbles : List Nat := [0, 14, 0, 0, 0, 0, 0, 0]

/-- The heartbeat-capability marker as raw bytes. -/
def markerBytes : List Nat := [0x00, 0x0F, 0x00, 0x01, 0x01]

/-- The flight-end marker as raw bytes. -/
def flightBytes : List Nat := [0x0E, 0x00, 0x00, 0x00]

/-- Result of the `checkExtension` scan loop: the capability flag, the bytes
consumed from the stream, and whether the loop ended at the flight-end marker
(`clean = true`) or by the read failing (`clean = false`, stream exhausted). -/
structure ScanResult where
  flag : Bool
  consumed : List Nat
  clean : Bool
deriving DecidableEq

/-- The loop body of `checkExtension` (heartbleed.go lines 147-164): read one
byte (failure returns the flag so far with the read error), append it to
`data`, set the flag if the hex rendering of `data` now ends with
"000F000101", and stop if it ends with "0E000000". -/
def checkExtensionAux (data : List Nat) (hb : Bool) : List Nat → ScanResult
  | [] => ⟨hb, data, false⟩
  | b :: rest =>
    let data' := data ++ [b]
    let hb' := if markerNibbles <:+ hexNibbles data' then true else hb
    if flightNibbles <:+ hexNibbles data' then ⟨hb', data', true⟩
    else checkExtensionAux data' hb' rest

/-- `checkExtension` from heartbleed.go: scan from an empty accumulator with
the flag unset. -/
def checkExtension (s : List Nat) : ScanResult := checkExtensionAux [] false s

/-- The byte-accumulation loop of `heartbeatListen`'s reader goroutine
(heartbleed.go lines 190-219), over the bytes the peer makes available
within the bounded response window (the timing machinery — initial 1 s
timeout, polls of the buffered count — only determines which bytes are
available and is abstracted into the input list): read a byte (list
exhausted models the read failing or the window closing), append it, and
return as soon as 1600 bytes have accumulated. -/
def hbCollect (data : List Nat) : List Nat → List Nat
  | [] => data
  | b :: rest =>
    if 1600 ≤ (data ++ [b]).length then data ++ [b]
    else hbCollect (data ++ [b]) rest

/-- `heartbeatListen` from heartbleed.go: collect the response bytes, then
classify purely from the accumulated byte count (threshold 1600). -/
def heartbeatListen (resp : List Nat) : String :=
  if 1600 ≤ (hbCollect [] resp).length then vulnerable else notVulnerable

end Heartbleed

namespace HeartbleedBytes

/-- Record/message constants from heartbleed_bytes.go. -/
def recordTypeHandshake : Nat := 0x16

def recordTypeHeartbeat : Nat := 0x18

def heartbeatMessageType : Nat := 0x01

def handshakeTypeHello : Nat := 0x01

def defaultHeartbeatLen : Nat := 0x4000

/-- `makePayload` from heartbleed_bytes.go: ContentType, the uint16 TLS
version (Go `int` truncated to `uint16`), Length=3, HBType=1 and
PayloadLen=0x4000, all big-endian. -/
def makePayload (tlsVers : Nat) : List Nat :=
  [recordTypeHeartbeat] ++ u16be (tlsVers % 65536) ++ u16be 3 ++
    [heartbeatMessageType] ++ u16be defaultHeartbeatLen

/-- The 182 bytes of the `restOfHello` hex string of heartbleed_bytes.go,
decoded (session id, cipher suites, compression methods and extensions,
ending with the heartbeat extension 00 0F 00 01 01). -/
def restOfHello : List Nat :=
  [0x00, 0x00, 0x66, 0xc0, 0x14, 0xc0, 0x0a, 0xc0, 0x22, 0xc0, 0x21, 0x00,
   0x39, 0x00, 0x38, 0x00, 0x88, 0x00, 0x87, 0xc0, 0x0f, 0xc0, 0x05, 0x00,
   0x35, 0x00, 0x84, 0xc0, 0x12, 0xc0, 0x08, 0xc0, 0x1c, 0xc0, 0x1b, 0x00,
   0x16, 0x00, 0x13, 0xc0, 0x0d, 0xc0, 0x03, 0x00, 0x0a, 0xc0, 0x13, 0xc0,
   0x09, 0xc0, 0x1f, 0xc0, 0x1e, 0x00, 0x33, 0x00, 0x32, 0x00, 0x9a, 0x00,
   0x99, 0x00, 0x45, 0x00, 0x44, 0xc0, 0x0e, 0xc0, 0x04, 0x00, 0x2f, 0x00,
   0x96, 0x00, 0x41, 0xc0, 0x11, 0xc0, 0x07, 0xc0, 0x0c, 0xc0, 0x02, 0x00,
   0x05, 0x00, 0x04, 0x00, 0x15, 0x00, 0x12, 0x00, 0x09, 0x00, 0x14, 0x00,
   0x11, 0x00, 0x08, 0x00, 0x06, 0x00, 0x03, 0x00, 0xff, 0x01, 0x00, 0x00,
   0x49, 0x00, 0x0b, 0x00, 0x04, 0x03, 0x00, 0x01, 0x02, 0x00, 0x0a, 0x00,
   0x34, 0x00, 0x32, 0x00, 0x0e, 0x00, 0x0d, 0x00, 0x19, 0x00, 0x0b, 0x00,
   0x0c, 0x00, 0x18, 0x00, 0x09, 0x00, 0x0a, 0x00, 0x16, 0x00, 0x17, 0x00,
   0x08, 0x00, 0x06, 0x00, 0x07, 0x00, 0x14, 0x00, 0x15, 0x00, 0x04, 0x00,
   0x05, 0x00, 0x12, 0x00, 0x13, 0x00, 0x01, 0x00, 0x02, 0x00, 0x03, 0x00,
   0x0f, 0x00, 0x10, 0x00, 0x11, 0x00, 0x23, 0x00, 0x00, 0x00, 0x0f, 0x00,
   0x01, 0x01]

/-- `makeClientHello` from heartbleed_bytes.go: ContentType, uint16 version,
hand-constant record length 0xdc, handshake type, hand-constant 24-bit
handshake length 0x00 0x00 0xd8, uint16 handshake version, the 32 random
bytes (a parameter here), then the decoded `restOfHello` bytes. -/
def makeClientHello (tlsVers : Nat) (random : List Nat) : List Nat :=
  [recordTypeHandshake] ++ u16be (tlsVers % 65536) ++ u16be 0xdc ++
    [handshakeTypeHello] ++ [0, 0, 0xd8] ++ u16be (tlsVers % 65536) ++
    random ++ restOfHello

end HeartbleedBytes

namespace Part002

/-- The 50-entry `defaultCipherSuites` catalog of the buffer-computed
heartbleed message builder (src/unnamed/part_002). -/
def defaultCipherSuites : List Nat :=
  [0xc014, 0xc00a, 0xc022, 0xc021, 0x0039, 0x0038, 0x0088, 0x0087,
   0xc00f, 0xc005, 0x0035, 0x0084, 0xc012, 0xc008, 0xc01c, 0xc01b,
   0x0016, 0x0013, 0xc00d, 0xc003, 0x000a, 0xc013, 0xc009, 0xc01f,
   0xc01e, 0x0033, 0x0032, 0x009a, 0x0099, 0x0045, 0x0044, 0xc00e,
   0xc004, 0x002f, 0x0096, 0x0041, 0xc011, 0xc007, 0xc00c, 0xc002,
   0x0005, 0x0004, 0x0015, 0x0012, 0x0009, 0x0014, 0x0011, 0x0008,
   0x0006, 0x0003]

/-- A TLS extension: type identifier and opaque data (part_002 `Extension`). -/
structure Extension where
  type : Nat
  data : List Nat

/-- The constant extension list built inside part_002 `makeClientHello`:
server name, secure renegotiation, session ticket, heartbeat (data byte 1). -/
def extensionsList : List Extension :=
  [⟨0x0000, [0x00, 0x0b, 0x00, 0x04, 0x03, 0x00, 0x01, 0x02]⟩,
   ⟨0xff01, [0x00]⟩,
   ⟨0x0023, []⟩,
   ⟨0x000f, [0x01]⟩]

/-- The `extBuf` buffer: each extension's uint16 type, uint16 data length,
then its data. -/
def extBuf : List Nat :=
  extensionsList.flatMap fun e => u16be e.type ++ u16be (e.data.length % 65536) ++ e.data

/-- part_002 `makePayload`: identical to the heartbleed_bytes.go version. -/
def makePayload (tlsVers : Nat) : List Nat :=
  [HeartbleedBytes.recordTypeHeartbeat] ++ u16be (tlsVers % 65536) ++ u16be 3 ++
    [HeartbleedBytes.heartbeatMessageType] ++ u16be HeartbleedBytes.defaultHeartbeatLen

/-- The `hsBuf` buffer of part_002 `makeClientHello`: handshake version,
random, zero session-id length, uint16 suite-list byte length, the suites,
the uint8 compression-method count and the null method, the uint16
extensions-block length and the extension bytes. -/
def hsBuf (tlsVers : Nat) (random : List Nat) : List Nat :=
  u16be (tlsVers % 65536) ++ random ++ [0] ++
    u16be ((defaultCipherSuites.length * 2) % 65536) ++
    (defaultCipherSuites.flatMap fun s => u16be s) ++
    [1 % 256] ++ [0] ++
    u16be (extBuf.length % 65536) ++ extBuf

/-- part_002 `makeClientHello`: the record length is
`uint16(hsBuf.Len()) + 4` and the 24-bit handshake length is
`{0, byte(hsBuf.Len() >> 8), byte(hsBuf.Len())}`, both computed from the
encoded handshake body. -/
def makeClientHello (tlsVers : Nat) (random : List Nat) : List Nat :=
  [HeartbleedBytes.recordTypeHandshake] ++ u16be (tlsVers % 65536) ++
    u16be (((hsBuf tlsVers random).length % 65536 + 4) % 65536) ++
    [HeartbleedBytes.handshakeTypeHello] ++
    [0, (hsBuf tlsVers random).length / 256 % 256, (hsBuf tlsVers random).length % 256] ++
    hsBuf tlsVers random

end Part002

namespace Heartbleed

/-- What `Heartbleed.Check` produces: the `Vulnerable` and `ExtensionEnabled`
fields, the returned Go error (`none` is nil), and the raw messages written
to the connection (the ClientHello and, when reached, the heartbeat
request). -/
structure CheckOutcome where
  vulnerable : String
  extension : Bool
  err : Option String
  helloSent : Option (List Nat)
  payloadSent : Option (List Nat)
deriving DecidableEq

/-- heartbleed.go lines 116-135: after the capability scan, if the flag is
set, record ExtensionEnabled, build and write the malformed heartbeat
request (write failure is fatal) and classify via `heartbeatListen`;
otherwise the verdict is "n/a". -/
def checkAfterScan (tlsVers : Nat) (clientHello : List Nat) (r : ScanResult)
    (writePayloadErr : Option String) (resp : List Nat) : CheckOutcome :=
  if r.flag then
    let payload := HeartbleedBytes.makePayload tlsVers
    match writePayloadErr with
    | some e => ⟨testFailed, true, some e, some clientHello, some payload⟩
    | none => ⟨heartbeatListen resp, true, none, some clientHello, some payload⟩
  else ⟨notApplicable, false, none, some clientHello, none⟩

/-- `Heartbleed.Check` from heartbleed.go, from the dial attempt onward:
dial (oracle error), clamp any version above TLS 1.2 (771) down to 771,
run the STARTTLS collaborator (oracle error), build and write the
ClientHello (oracle error), scan the peer stream `s` with `checkExtension`
(if the stream is exhausted the read error carries the message
`scanEndErr`, and only the exact message "EOF" is absorbed), then classify
via `checkAfterScan`. -/
def Check (tlsVers : Nat) (random : List Nat)
    (connectErr starttlsErr writeHelloErr : Option String)
    (s : List Nat) (scanEndErr : String) (writePayloadErr : Option String)
    (resp : List Nat) : CheckOutcome :=
  match connectErr with
  | some e => ⟨testFailed, false, some e, none, none⟩
  | none =>
    let tlsVers := if 771 < tlsVers then 771 else tlsVers
    match starttlsErr with
    | some e => ⟨testFailed, false, some e, none, none⟩
    | none =>
      let clientHello := HeartbleedBytes.makeClientHello tlsVers random
      match writeHelloErr with
      | some e => ⟨testFailed, false, some e, some clientHello, none⟩
      | none =>
        let r := checkExtension s
        match (if r.clean then none else some scanEndErr : Option String) with
        | none => checkAfterScan tlsVers clientHello r writePayloadErr resp
        | some m =>
          if m = "EOF" then checkAfterScan tlsVers clientHello r writePayloadErr resp
          else ⟨testFailed, false, some m, some clientHello, none⟩

end Heartbleed

namespace Ccs

theorem pair_begins_iff (a b : Nat) (l : List Nat) :
    [a, b] <+: l ↔ 2 ≤ l.length ∧ l.getD 0 0 = a ∧ l.getD 1 0 = b := by
  match l with
  | [] => simp
  | [x] =>
    simp [List.cons_prefix_cons]
  | x :: y :: rest =>
    simp [List.cons_prefix_cons, eq_comm]

end Ccs

namespace Heartbleed

theorem hexNibbles_append (a b : List Nat) :
    hexNibbles (a ++ b) = hexNibbles a ++ hexNibbles b := by
  simp [hexNibbles]

theorem hexNibbles_length (a : List Nat) :
    (hexNibbles a).length = 2 * a.length := by
  induction a with
  | nil => rfl
  | cons x xs ih =>
    show (hexNibbles ([x] ++ xs)).length = _
    rw [hexNibbles_append]
    simp only [List.length_append, ih, List.length_cons]
    simp [hexNibbles]
    omega

theorem hexNibbles_inj {a b : List Nat} (h : hexNibbles a = hexNibbles b) :
    a = b := by
  induction a generalizing b with
  | nil =>
    cases b with
    | nil => rfl
    | cons y ys => simp [hexNibbles] at h
  | cons x xs ih =>
    cases b with
    | nil => simp [hexNibbles] at h
    | cons y ys =>
      simp only [hexNibbles, List.flatMap_cons, List.cons_append, List.nil_append,
        List.cons.injEq] at h
      obtain ⟨hd, hm, htl⟩ := h
      have hx : x = y := by
        have h1 := Nat.div_add_mod x 16
        have h2 := Nat.div_add_mod y 16
        omega
      exact hx ▸ congrArg (x :: ·) (ih htl)

theorem hexNibbles_suffix_iff (pat data : List Nat) :
    hexNibbles pat <:+ hexNibbles data ↔ pat <:+ data := by
  constructor
  · rintro ⟨t, ht⟩
    have hlen : pat.length ≤ data.length := by
      have := congrArg List.length ht
      simp only [List.length_append, hexNibbles_length] at this
      omega
    have hsplit : data.take (data.length - pat.length) ++
        data.drop (data.length - pat.length) = data := List.take_append_drop _ _
    have hslen : (data.drop (data.length - pat.length)).length = pat.length := by
      simp only [List.length_drop]
      omega
    have heq : hexNibbles (data.take (data.length - pat.length)) ++
        hexNibbles (data.drop (data.length - pat.length)) = t ++ hexNibbles pat := by
      rw [← hexNibbles_append, hsplit, ← ht]
    have := List.append_inj_right' heq.symm
      (by rw [hexNibbles_length, hexNibbles_length, hslen])
    have hpd : pat = data.drop (data.length - pat.length) := hexNibbles_inj this
    rw [hpd]
    exact List.drop_suffix _ _
  · rintro ⟨t, ht⟩
    exact ⟨hexNibbles t, by rw [← hexNibbles_append, ht]⟩

theorem marker_suffix_iff (d : List Nat) :
    (markerNibbles <:+ hexNibbles d) ↔ markerBytes <:+ d := by
  have h : markerNibbles = hexNibbles markerBytes := by decide
  rw [h, hexNibbles_suffix_iff]

theorem flight_suffix_iff (d : List Nat) :
    (flightNibbles <:+ hexNibbles d) ↔ flightBytes <:+ d := by
  have h : flightNibbles = hexNibbles flightBytes := by decide
  rw [h, hexNibbles_suffix_iff]

theorem pref_snoc_cases {p data : List Nat} {b : Nat} (h : p <+: data ++ [b]) :
    p <+: data ∨ p = data ++ [b] := by
  have hl : (data ++ [b]).length = data.length + 1 := by simp
  rcases Nat.lt_or_ge p.length (data ++ [b]).length with hlt | hge
  · left
    have hle : p.length ≤ data.length := by omega
    exact List.prefix_of_prefix_length_le h (List.prefix_append data [b]) hle
  · right
    exact h.eq_of_length_le hge

theorem aux_consumed_extends (s : List Nat) :
    ∀ data hb, data <+: (checkExtensionAux data hb s).consumed := by
  induction s with
  | nil => intro data hb; exact List.prefix_rfl
  | cons b rest ih =>
    intro data hb
    simp only [checkExtensionAux]
    split
    · exact List.prefix_append data [b]
    · exact (List.prefix_append data [b]).trans (ih _ _)

theorem aux_consumed_in_stream (s : List Nat) :
    ∀ data hb, (checkExtensionAux data hb s).consumed <+: data ++ s := by
  induction s with
  | nil =>
    intro data hb
    simp only [checkExtensionAux, List.append_nil]
    exact List.prefix_rfl
  | cons b rest ih =>
    intro data hb
    simp only [checkExtensionAux]
    split
    · refine ⟨rest, ?_⟩
      simp
    · have h2 := ih (data ++ [b])
        (if markerNibbles <:+ hexNibbles (data ++ [b]) then true else hb)
      rwa [List.append_assoc] at h2

theorem aux_not_clean (s : List Nat) :
    ∀ data hb, (checkExtensionAux data hb s).clean = false →
      (checkExtensionAux data hb s).consumed = data ++ s := by
  induction s with
  | nil =>
    intro data hb _
    simp [checkExtensionAux]
  | cons b rest ih =>
    intro data hb h
    simp only [checkExtensionAux] at h ⊢
    split at h
    · exact absurd h (by simp)
    · rename_i hfl
      rw [if_neg hfl]
      have h2 := ih (data ++ [b])
        (if markerNibbles <:+ hexNibbles (data ++ [b]) then true else hb) h
      rw [h2]
      simp

theorem aux_flag_mono (s : List Nat) :
    ∀ data, (checkExtensionAux data true s).flag = true := by
  induction s with
  | nil => intro data; rfl
  | cons b rest ih =>
    intro data
    simp only [checkExtensionAux, ite_self]
    split
    · rfl
    · exact ih _

theorem aux_flag_iff (s : List Nat) :
    ∀ data hb, (markerBytes <:+ data → hb = true) →
      ((checkExtensionAux data hb s).flag = true ↔
        hb = true ∨ ∃ p, data <+: p ∧ p <+: (checkExtensionAux data hb s).consumed ∧
          markerBytes <:+ p) := by
  induction s with
  | nil =>
    intro data hb hM
    simp only [checkExtensionAux]
    constructor
    · intro h; exact Or.inl h
    · rintro (h | ⟨p, hp1, hp2, hp3⟩)
      · exact h
      · have hpd : p = data := hp2.eq_of_length_le hp1.length_le
        exact hM (hpd ▸ hp3)
  | cons b rest ih =>
    intro data hb hM
    simp only [checkExtensionAux]
    by_cases hmk : markerNibbles <:+ hexNibbles (data ++ [b])
    · have hmb : markerBytes <:+ data ++ [b] := (marker_suffix_iff _).mp hmk
      rw [if_pos hmk]
      split
      · exact ⟨fun _ =>
          Or.inr ⟨data ++ [b], List.prefix_append data [b], List.prefix_rfl, hmb⟩,
          fun _ => rfl⟩
      · have hflag := aux_flag_mono rest (data ++ [b])
        rw [hflag]
        exact ⟨fun _ => Or.inr ⟨data ++ [b], List.prefix_append data [b],
          aux_consumed_extends rest (data ++ [b]) true, hmb⟩, fun _ => rfl⟩
    · have hmb : ¬ markerBytes <:+ data ++ [b] := fun hc =>
        hmk ((marker_suffix_iff _).mpr hc)
      rw [if_neg hmk]
      split
      · constructor
        · intro h; exact Or.inl h
        · rintro (h | ⟨p, hp1, hp2, hp3⟩)
          · exact h
          · rcases pref_snoc_cases hp2 with hc | hc
            · have hpd : p = data := hc.eq_of_length_le hp1.length_le
              exact hM (hpd ▸ hp3)
            · exact absurd (hc ▸ hp3) hmb
      · have ihs := ih (data ++ [b]) hb (fun hc => absurd hc hmb)
        rw [ihs]
        constructor
        · rintro (h | ⟨p, hp1, hp2, hp3⟩)
          · exact Or.inl h
          · exact Or.inr ⟨p, (List.prefix_append data [b]).trans hp1, hp2, hp3⟩
        · rintro (h | ⟨p, hp1, hp2, hp3⟩)
          · exact Or.inl h
          · by_cases hpd : p = data
            · exact Or.inl (hM (hpd ▸ hp3))
            · refine Or.inr ⟨p, ?_, hp2, hp3⟩
              have hlt : data.length < p.length := by
                rcases Nat.lt_or_ge data.length p.length with h1 | h1
                · exact h1
                · exact absurd (hp1.eq_of_length_le h1).symm hpd
              have hdp : data ++ [b] <+: (checkExtensionAux (data ++ [b]) hb rest).consumed :=
                aux_consumed_extends rest (data ++ [b]) hb
              refine List.prefix_of_prefix_length_le hdp hp2 ?_
              have hl1 : (data ++ [b]).length = data.length + 1 := by simp
              omega

theorem aux_clean_spec (s : List Nat) :
    ∀ data hb, (∀ p, p <+: data → ¬ flightBytes <:+ p) →
      (checkExtensionAux data hb s).clean = true →
      flightBytes <:+ (checkExtensionAux data hb s).consumed ∧
        ∀ p, p <+: (checkExtensionAux data hb s).consumed → flightBytes <:+ p →
          p = (checkExtensionAux data hb s).consumed := by
  induction s with
  | nil =>
    intro data hb _ h
    exact absurd h (by simp [checkExtensionAux])
  | cons b rest ih =>
    intro data hb hAll h
    simp only [checkExtensionAux] at h ⊢
    split at h
    · rename_i hfl
      rw [if_pos hfl]
      refine ⟨(flight_suffix_iff _).mp hfl, fun p hp1 hp2 => ?_⟩
      rcases pref_snoc_cases hp1 with hc | hc
      · exact absurd hp2 (hAll p hc)
      · exact hc
    · rename_i hfl
      rw [if_neg hfl]
      refine ih (data ++ [b]) _ (fun p hp1 hp2 => ?_) h
      rcases pref_snoc_cases hp1 with hc | hc
      · exact absurd hp2 (hAll p hc)
      · exact absurd ((flight_suffix_iff _).mpr (hc ▸ hp2)) hfl

/-- The capability flag returned by `checkExtension` is set exactly when the
marker occurs contiguously in the consumed prefix. -/
theorem checkExtension_flag_iff (s : List Nat) :
    (checkExtension s).flag = true ↔
      markerBytes <:+: (checkExtension s).consumed := by
  have hM : markerBytes <:+ ([] : List Nat) → (false : Bool) = true := by
    intro hc
    have := List.suffix_nil.mp hc
    simp [markerBytes] at this
  have h := aux_flag_iff s [] false hM
  rw [checkExtension, h]
  rw [List.infix_iff_suffix_prefix]
  constructor
  · rintro (h1 | ⟨p, _, hp2, hp3⟩)
    · exact absurd h1 (by simp)
    · exact ⟨p, hp3, hp2⟩
  · rintro ⟨t, ht1, ht2⟩
    exact Or.inr ⟨t, List.nil_prefix, ht2, ht1⟩

end Heartbleed

namespace Heartbleed

theorem hbCollect_take (s : List Nat) :
    ∀ data, data.length < 1600 →
      hbCollect data s = data ++ s.take (1600 - data.length) := by
  induction s with
  | nil =>
    intro data _
    simp [hbCollect]
  | cons b rest ih =>
    intro data hlen
    have hl : (data ++ [b]).length = data.length + 1 := by simp
    simp only [hbCollect]
    by_cases hfull : 1600 ≤ (data ++ [b]).length
    · rw [if_pos hfull]
      have hd : data.length = 1599 := by omega
      rw [hd]
      norm_num
    · rw [if_neg hfull]
      rw [ih (data ++ [b]) (by omega)]
      have htk : (1600 - data.length) = (1600 - (data ++ [b]).length) + 1 := by
        omega
      rw [htk, hl]
      simp [List.append_assoc, List.take_succ_cons]

end Heartbleed

/-- C2: the Heartbleed response collector classifies purely from the
cumulative byte count read within the bounded window: it stops accumulating
exactly at 1600 bytes (collecting `take 1600` of the available bytes), yields
Vulnerable="yes" exactly when at least 1600 bytes accumulated, and yields
Vulnerable="no" for every accumulated total under 1600, including zero. -/
theorem heartbeatListen_spec (resp : List Nat) :
    Heartbleed.hbCollect [] resp = resp.take 1600 ∧
    (Heartbleed.heartbeatListen resp = Heartbleed.vulnerable ↔
      1600 ≤ (Heartbleed.hbCollect [] resp).length) ∧
    (Heartbleed.heartbeatListen resp = Heartbleed.vulnerable ↔ 1600 ≤ resp.length) ∧
    ((Heartbleed.hbCollect [] resp).length < 1600 →
      Heartbleed.heartbeatListen resp = Heartbleed.notVulnerable) := by
  have hcol : Heartbleed.hbCollect [] resp = resp.take 1600 := by
    have h := Heartbleed.hbCollect_take resp [] (by norm_num)
    simpa using h
  have hlen : (Heartbleed.hbCollect [] resp).length = min 1600 resp.length := by
    rw [hcol, List.length_take]
  have hyn : Heartbleed.vulnerable ≠ Heartbleed.notVulnerable := by decide
  refine ⟨hcol, ?_, ?_, ?_⟩
  · constructor
    · intro h
      by_contra hc
      rw [Heartbleed.heartbeatListen, if_neg hc] at h
      exact hyn h.symm
    · intro h
      rw [Heartbleed.heartbeatListen, if_pos h]
  · constructor
    · intro h
      by_contra hc
      have hlt : (Heartbleed.hbCollect [] resp).length < 1600 := by omega
      rw [Heartbleed.heartbeatListen, if_neg (by omega)] at h
      exact hyn h.symm
    · intro h
      rw [Heartbleed.heartbeatListen, if_pos (by omega)]
  · intro h
    rw [Heartbleed.heartbeatListen, if_neg (by omega)]

/-- Witness for C2: an empty response window yields Vulnerable="no". -/
theorem heartbeatListen_spec_witness :
    Heartbleed.heartbeatListen [] = Heartbleed.notVulnerable :=
  (heartbeatListen_spec []).2.2.2 (by decide)

/-- C3: for every finite input byte stream, `checkExtension` terminates at the
first position where the 4-byte flight-end marker 0E 00 00 00 is a suffix of
the bytes consumed so far, or (stream exhausted) when the underlying read
fails, in which case everything was consumed; it returns the capability flag
true if and only if the 5-byte sequence 00 0F 00 01 01 occurs contiguously
anywhere in the consumed prefix; and the flag, once set, is never cleared by
later bytes. -/
theorem checkExtension_spec (s : List Nat) :
    ((Heartbleed.checkExtension s).flag = true ↔
      Heartbleed.markerBytes <:+: (Heartbleed.checkExtension s).consumed) ∧
    (Heartbleed.checkExtension s).consumed <+: s ∧
    ((Heartbleed.checkExtension s).clean = true →
      Heartbleed.flightBytes <:+ (Heartbleed.checkExtension s).consumed ∧
      ∀ p, p <+: (Heartbleed.checkExtension s).consumed →
        Heartbleed.flightBytes <:+ p → p = (Heartbleed.checkExtension s).consumed) ∧
    ((Heartbleed.checkExtension s).clean = false →
      (Heartbleed.checkExtension s).consumed = s) ∧
    (∀ data t, (Heartbleed.checkExtensionAux data true t).flag = true) := by
  refine ⟨Heartbleed.checkExtension_flag_iff s, ?_, ?_, ?_,
    fun data t => Heartbleed.aux_flag_mono t data⟩
  · have h := Heartbleed.aux_consumed_in_stream s [] false
    rwa [List.nil_append] at h
  · intro hcl
    have hAll : ∀ p, p <+: ([] : List Nat) → ¬ Heartbleed.flightBytes <:+ p := by
      intro p hp
      rw [List.prefix_nil.mp hp]
      intro hc
      have := List.suffix_nil.mp hc
      simp [Heartbleed.flightBytes] at this
    exact Heartbleed.aux_clean_spec s [] false hAll hcl
  · intro hcl
    have h := Heartbleed.aux_not_clean s [] false hcl
    rwa [List.nil_append] at h

/-- Witness for C3: on the stream 00 0F 00 01 01 0E 00 00 00 the scan stops
cleanly at the flight-end marker with the capability flag set. -/
theorem checkExtension_spec_witness :
    Heartbleed.flightBytes <:+
      (Heartbleed.checkExtension [0, 15, 0, 1, 1, 14, 0, 0, 0]).consumed :=
  ((checkExtension_spec [0, 15, 0, 1, 1, 14, 0, 0, 0]).2.2.1 (by decide)).1

/-- C10: the ServerHelloDone wait loop of `CCSInjection.Check` is NOT safe for
every peer-declared record length: on a Handshake record whose declared body
length is 0 (raw peer bytes 22, 3, 1, 0, 0), `readTLSRecord` succeeds with an
empty body slice and the subsequent `body[0]` access is out of bounds (a Go
runtime panic), refuting the claim's safety statement. -/
theorem awaitSHD_panics_on_empty_handshake_body :
    Ccs.awaitSHD [22, 3, 1, 0, 0] = Ccs.SHDOutcome.panicOOB ∧
      Ccs.readTLSRecord [22, 3, 1, 0, 0] =
        some (⟨22, 769, 0⟩, [], []) := by
  constructor
  · rw [Ccs.awaitSHD]
    decide
  · decide

/-- C1: after ServerHelloDone was observed and the first ChangeCipherSpec was
written (deadline updates and the second write succeeding), `CCSInjection.Check`
behaves as claimed: a successful first read yields Vulnerable="no" with a nil
error and no second ChangeCipherSpec sent; a failed first read leads to the
second ChangeCipherSpec being sent, after which a failed read yields "no" with
nil error, an Alert whose body begins with {fatal=2, unexpected_message=10}
yields "no", and every other successfully read record yields "yes". -/
theorem afterServerHelloDone_spec (read1 read2 : Ccs.ReadResult) :
    (∀ hd body, read1 = .ok hd body →
      Ccs.afterServerHelloDone none read1 none none read2 =
        ⟨Ccs.notVulnerable, none, false⟩) ∧
    (read1 = .fail →
      (Ccs.afterServerHelloDone none read1 none none read2).secondCCSSent = true ∧
      (read2 = .fail →
        Ccs.afterServerHelloDone none read1 none none read2 =
          ⟨Ccs.notVulnerable, none, true⟩) ∧
      (∀ hd body, read2 = .ok hd body →
        (hd.type = Ccs.recordTypeAlert ∧
            [Ccs.alertLevelFatal, Ccs.alertUnexpectedMessage] <+: body →
          Ccs.afterServerHelloDone none read1 none none read2 =
            ⟨Ccs.notVulnerable, none, true⟩) ∧
        (¬(hd.type = Ccs.recordTypeAlert ∧
            [Ccs.alertLevelFatal, Ccs.alertUnexpectedMessage] <+: body) →
          Ccs.afterServerHelloDone none read1 none none read2 =
            ⟨Ccs.vulnerable, none, true⟩))) := by
  refine ⟨fun hd body h1 => ?_, fun h1 => ?_⟩
  · subst h1; rfl
  · subst h1
    refine ⟨?_, fun h2 => ?_, fun hd body h2 => ?_⟩
    · cases read2 with
      | ok hd body =>
        simp only [Ccs.afterServerHelloDone]
        split
        · split <;> rfl
        · rfl
      | fail => rfl
    · subst h2; rfl
    · subst h2
      constructor
      · rintro ⟨hty, hpre⟩
        obtain ⟨hlen, h0, h1⟩ := (Ccs.pair_begins_iff _ _ body).mp hpre
        simp only [Ccs.afterServerHelloDone]
        rw [if_pos hty, if_pos ⟨hlen, h0, h1⟩]
      · intro hno
        simp only [Ccs.afterServerHelloDone]
        by_cases hty : hd.type = Ccs.recordTypeAlert
        · rw [if_pos hty, if_neg]
          intro hc
          exact hno ⟨hty, (Ccs.pair_begins_iff _ _ body).mpr hc⟩
        · rw [if_neg hty]

/-- Witness for C1 at concrete inputs: a failed first read followed by a fatal
unexpected-message alert gives Vulnerable="no" with the second CCS sent. -/
theorem afterServerHelloDone_spec_witness :
    Ccs.afterServerHelloDone none .fail none none (.ok ⟨21, 769, 2⟩ [2, 10]) =
      ⟨Ccs.notVulnerable, none, true⟩ :=
  (((afterServerHelloDone_spec .fail (.ok ⟨21, 769, 2⟩ [2, 10])).2 rfl).2.2
    ⟨21, 769, 2⟩ [2, 10] rfl).1 ⟨rfl, by decide⟩

/-- C6: for every protocol version argument, `makePayload` (in both source
variants) is exactly the 8-byte record: Heartbeat type 0x18, the two
big-endian bytes of the uint16-truncated version, declared record body
length 3, heartbeat message type 1 (request), and claimed payload length
0x4000 — with nothing appended after the claimed length. -/
theorem makePayload_spec (tlsVers : Nat) :
    HeartbleedBytes.makePayload tlsVers =
      [0x18, tlsVers % 65536 / 256, tlsVers % 256, 0, 3, 1, 0x40, 0x00] ∧
    Part002.makePayload tlsVers = HeartbleedBytes.makePayload tlsVers ∧
    (HeartbleedBytes.makePayload tlsVers).length = 8 := by
  have hlt : tlsVers % 65536 < 65536 := Nat.mod_lt _ (by norm_num)
  have hdivlt : tlsVers % 65536 / 256 < 256 := Nat.div_lt_of_lt_mul (by omega)
  have hdiv : tlsVers % 65536 / 256 % 256 = tlsVers % 65536 / 256 :=
    Nat.mod_eq_of_lt hdivlt
  have hmod : tlsVers % 65536 % 256 = tlsVers % 256 :=
    Nat.mod_mod_of_dvd _ (by norm_num)
  refine ⟨?_, rfl, by simp [HeartbleedBytes.makePayload, u16be]⟩
  simp [HeartbleedBytes.makePayload, u16be, HeartbleedBytes.recordTypeHeartbeat,
    HeartbleedBytes.heartbeatMessageType, HeartbleedBytes.defaultHeartbeatLen,
    hdiv, hmod]

/-- C5: the round-trip length invariant FAILS on the CCS minimal ClientHello:
`buildClientHello` hand-codes the 24-bit handshake length as 0x000035 = 53,
but 69 handshake-payload bytes actually follow the handshake header (the
14-suite catalog occupies 28 bytes).  The 16-bit record length (computed from
the encoded body) is correct: declared 73, actual 73. -/
theorem buildClientHello_hsLen_mismatch :
    hsDeclaredLen (Ccs.buildClientHello (List.replicate 32 0)) = 53 ∧
    hsBodyLen (Ccs.buildClientHello (List.replicate 32 0)) = 69 ∧
    recordDeclaredLen (Ccs.buildClientHello (List.replicate 32 0)) = 73 ∧
    recordBodyLen (Ccs.buildClientHello (List.replicate 32 0)) = 73 := by
  refine ⟨?_, ?_, ?_, ?_⟩ <;> decide

/-- C7: `Heartbleed.Check` clamps every requested version above TLS 1.2 (771)
to TLS 1.2 before building any message, so a check at such a version is
byte-for-byte the check at 771; the ClientHello then carries version bytes
03 03 in its record header (positions 1-2) and handshake version field
(positions 9-10), and the heartbeat request carries 03 03 in its header. -/
theorem check_clamps_version (v : Nat) (hv : 771 < v) :
    (∀ random connectErr starttlsErr writeHelloErr s scanEndErr writePayloadErr resp,
      Heartbleed.Check v random connectErr starttlsErr writeHelloErr s scanEndErr
          writePayloadErr resp =
        Heartbleed.Check 771 random connectErr starttlsErr writeHelloErr s scanEndErr
          writePayloadErr resp) ∧
    (∀ random,
      HeartbleedBytes.makeClientHello 771 random =
        [0x16, 3, 3, 0, 0xdc, 1, 0, 0, 0xd8, 3, 3] ++ random ++
          HeartbleedBytes.restOfHello) ∧
    HeartbleedBytes.makePayload 771 = [0x18, 3, 3, 0, 3, 1, 0x40, 0x00] := by
  have hcl : (if 771 < v then 771 else v) = 771 := if_pos hv
  refine ⟨?_, ?_, by decide⟩
  · intro random cE sE wE s e wpE resp
    simp only [Heartbleed.Check, hcl, ite_self]
  · intro random
    simp [HeartbleedBytes.makeClientHello, u16be, HeartbleedBytes.recordTypeHandshake,
      HeartbleedBytes.handshakeTypeHello]

/-- Witness for C7: a request at version 772 builds the same heartbeat
request as one at 771. -/
theorem check_clamps_version_witness :
    HeartbleedBytes.makePayload 771 = [0x18, 3, 3, 0, 3, 1, 0x40, 0x00] :=
  (check_clamps_version 772 (by norm_num)).2.2

/-- C4: a capability-scan read failure whose error message is a TCP
connection reset is NOT absorbed by `Heartbleed.Check`: only the exact
message "EOF" is matched (heartbleed.go line 108), so a reset surfaces as
Vulnerable="error" with the error returned, while the claim (and the
code's own comment about peers resetting the connection) says every
peer-initiated termination, resets included, is absorbed as end-of-scan. -/
theorem check_reset_not_absorbed :
    (Heartbleed.Check 771 [] none none none []
        "read tcp 10.0.0.1:54321->10.0.0.2:443: read: connection reset by peer"
        none []).vulnerable = Heartbleed.testFailed ∧
    (Heartbleed.Check 771 [] none none none []
        "read tcp 10.0.0.1:54321->10.0.0.2:443: read: connection reset by peer"
        none []).err =
      some "read tcp 10.0.0.1:54321->10.0.0.2:443: read: connection reset by peer" ∧
    (Heartbleed.Check 771 [] none none none [] "EOF" none []).vulnerable =
      Heartbleed.notApplicable ∧
    (Heartbleed.Check 771 [] none none none [] "EOF" none []).err = none := by
  refine ⟨?_, ?_, ?_, ?_⟩ <;> rfl

/-- C8: when the capability scan ends at the flight-end marker or benignly
(stream end surfacing as the absorbed "EOF" error) without the capability
marker ever occurring in the consumed bytes, `Heartbleed.Check` returns a
nil error with ExtensionEnabled=false and Vulnerable="n/a", and never sends
the malformed heartbeat request — for every requested protocol version,
including versions above TLS 1.2. -/
theorem check_no_marker_notApplicable (v : Nat) (s : List Nat) (scanEndErr : String)
    (hend : (Heartbleed.checkExtension s).clean = true ∨ scanEndErr = "EOF")
    (hnm : ¬ Heartbleed.markerBytes <:+: (Heartbleed.checkExtension s).consumed) :
    ∀ random writePayloadErr resp,
      Heartbleed.Check v random none none none s scanEndErr writePayloadErr resp =
        ⟨Heartbleed.notApplicable, false, none,
          some (HeartbleedBytes.makeClientHello (if 771 < v then 771 else v) random),
          none⟩ := by
  intro random wpErr resp
  have hflag : (Heartbleed.checkExtension s).flag = false := by
    cases hf : (Heartbleed.checkExtension s).flag
    · rfl
    · exact absurd ((Heartbleed.checkExtension_flag_iff s).mp hf) hnm
  by_cases hcl : (Heartbleed.checkExtension s).clean = true
  · simp [Heartbleed.Check, hcl, Heartbleed.checkAfterScan, hflag]
  · have heof : scanEndErr = "EOF" := by
      rcases hend with h | h
      · exact absurd h hcl
      · exact h
    have hcl2 : (Heartbleed.checkExtension s).clean = false := by
      cases h : (Heartbleed.checkExtension s).clean
      · rfl
      · exact absurd h hcl
    subst heof
    simp [Heartbleed.Check, hcl2, Heartbleed.checkAfterScan, hflag]

/-- Witness for C8: version 772, a stream that is just the flight-end marker. -/
theorem check_no_marker_notApplicable_witness :
    Heartbleed.Check 772 [] none none none [14, 0, 0, 0] "x" none [] =
      ⟨Heartbleed.notApplicable, false, none,
        some (HeartbleedBytes.makeClientHello (if 771 < 772 then 771 else 772) []),
        none⟩ :=
  check_no_marker_notApplicable 772 [14, 0, 0, 0] "x" (Or.inl (by decide))
    (by decide) [] none []

theorem ccs_build_split (r : List Nat) (h : r.length = 32) :
    Ccs.buildClientHello r =
      [22, 3, 1, 0, 73, 1, 0, 0, 0x35, 3, 3] ++ r ++
        ([0] ++ u16be 28 ++ (Ccs.cipherSuites.flatMap fun s => u16be s) ++
          [1, 0] ++ [0, 0]) := by
  simp [Ccs.buildClientHello, Ccs.recordTypeHandshake, Ccs.handshakeTypeClientHello,
    Ccs.cipherSuites, u16be, h]

theorem hb_build_split (v : Nat) (r : List Nat) :
    HeartbleedBytes.makeClientHello v r =
      ([0x16] ++ u16be (v % 65536) ++ [0, 0xdc, 1, 0, 0, 0xd8] ++ u16be (v % 65536)) ++
        r ++ HeartbleedBytes.restOfHello := by
  simp [HeartbleedBytes.makeClientHello, HeartbleedBytes.recordTypeHandshake,
    HeartbleedBytes.handshakeTypeHello, u16be]

theorem p002_build_split (v : Nat) (r : List Nat) (h : r.length = 32) :
    Part002.makeClientHello v r =
      ([0x16] ++ u16be (v % 65536) ++ [0, 171, 1, 0, 0, 167] ++ u16be (v % 65536)) ++
        r ++
        ([0] ++ u16be 100 ++ (Part002.defaultCipherSuites.flatMap fun s => u16be s) ++
          [1] ++ [0] ++ u16be 26 ++ Part002.extBuf) := by
  have h100 : (Part002.defaultCipherSuites.flatMap fun s => u16be s).length = 100 := by
    decide
  have h26 : Part002.extBuf.length = 26 := by decide
  have hu2 : ∀ n, (u16be n).length = 2 := fun n => rfl
  have hlen : (Part002.hsBuf v r).length = 167 := by
    rw [Part002.hsBuf]
    simp only [List.length_append, hu2, h, h100, h26, List.length_cons,
      List.length_nil]
  have hA : u16be (((Part002.hsBuf v r).length % 65536 + 4) % 65536) = [0, 171] := by
    rw [hlen]
    decide
  have hB1 : (Part002.hsBuf v r).length / 256 % 256 = 0 := by rw [hlen]
  have hB2 : (Part002.hsBuf v r).length % 256 = 167 := by rw [hlen]
  have hhs : Part002.hsBuf v r =
      u16be (v % 65536) ++ r ++
        ([0] ++ u16be 100 ++ (Part002.defaultCipherSuites.flatMap fun s => u16be s) ++
          [1] ++ [0] ++ u16be 26 ++ Part002.extBuf) := by
    rw [Part002.hsBuf, h26]
    have hsl : (Part002.defaultCipherSuites.length * 2) % 65536 = 100 := by decide
    rw [hsl]
    simp [List.append_assoc]
  rw [Part002.makeClientHello, hA, hB1, hB2, hhs]
  simp [List.append_assoc, HeartbleedBytes.recordTypeHandshake,
    HeartbleedBytes.handshakeTypeHello]

theorem nonce_window_eq {A B r1 r2 : List Nat} (hA : A.length = 11)
    (h1 : r1.length = 32) (h2 : r2.length = 32) :
    (A ++ r1 ++ B).length = (A ++ r2 ++ B).length ∧
    ∀ i, i < 11 ∨ 42 < i → (A ++ r1 ++ B)[i]? = (A ++ r2 ++ B)[i]? := by
  constructor
  · simp [h1, h2]
  · intro i hi
    have hA1 : (A ++ r1).length = 43 := by simp [hA, h1]
    have hA2 : (A ++ r2).length = 43 := by simp [hA, h2]
    rcases hi with hlt | hgt
    · rw [List.getElem?_append_left (by omega : i < (A ++ r1).length),
        List.getElem?_append_left (by omega : i < (A ++ r2).length),
        List.getElem?_append_left (by omega : i < A.length),
        List.getElem?_append_left (by omega : i < A.length)]
    · rw [List.getElem?_append_right (by omega : (A ++ r1).length ≤ i),
        List.getElem?_append_right (by omega : (A ++ r2).length ≤ i),
        hA1, hA2]

theorem check_payload_indep (v : Nat) (r1 r2 : List Nat)
    (cE sE wE : Option String) (s : List Nat) (e : String)
    (wpE : Option String) (resp : List Nat) :
    (Heartbleed.Check v r1 cE sE wE s e wpE resp).payloadSent =
      (Heartbleed.Check v r2 cE sE wE s e wpE resp).payloadSent := by
  cases cE
  case some => rfl
  case none =>
  cases sE
  case some => rfl
  case none =>
  cases wE
  case some => rfl
  case none =>
  simp only [Heartbleed.Check, Heartbleed.checkAfterScan]
  split
  · split
    · cases wpE <;> rfl
    · rfl
  · split
    · split
      · cases wpE <;> rfl
      · rfl
    · rfl

/-- C9: two invocations of the same ClientHello builder with the same version
(and 32-byte random draws, as `rand.Read` fills a 32-byte buffer) produce
byte sequences of equal length that agree at every position outside the
nonce window, record bytes 11 through 42; and the heartbeat request sent by
`Check` does not depend on the random draw at all (in the embedding the
builders' only entropy input is the random parameter, and `makePayload`
takes none). -/
theorem builders_random_window_spec (v : Nat) (r1 r2 : List Nat)
    (h1 : r1.length = 32) (h2 : r2.length = 32) :
    ((Ccs.buildClientHello r1).length = (Ccs.buildClientHello r2).length ∧
      ∀ i, i < 11 ∨ 42 < i →
        (Ccs.buildClientHello r1)[i]? = (Ccs.buildClientHello r2)[i]?) ∧
    ((HeartbleedBytes.makeClientHello v r1).length =
        (HeartbleedBytes.makeClientHello v r2).length ∧
      ∀ i, i < 11 ∨ 42 < i →
        (HeartbleedBytes.makeClientHello v r1)[i]? =
          (HeartbleedBytes.makeClientHello v r2)[i]?) ∧
    ((Part002.makeClientHello v r1).length = (Part002.makeClientHello v r2).length ∧
      ∀ i, i < 11 ∨ 42 < i →
        (Part002.makeClientHello v r1)[i]? = (Part002.makeClientHello v r2)[i]?) ∧
    (∀ connectErr starttlsErr writeHelloErr s scanEndErr writePayloadErr resp,
      (Heartbleed.Check v r1 connectErr starttlsErr writeHelloErr s scanEndErr
          writePayloadErr resp).payloadSent =
        (Heartbleed.Check v r2 connectErr starttlsErr writeHelloErr s scanEndErr
            writePayloadErr resp).payloadSent) := by
  refine ⟨?_, ?_, ?_, fun cE sE wE s e wpE resp =>
    check_payload_indep v r1 r2 cE sE wE s e wpE resp⟩
  · rw [ccs_build_split r1 h1, ccs_build_split r2 h2]
    exact nonce_window_eq (by rfl) h1 h2
  · rw [hb_build_split v r1, hb_build_split v r2]
    refine nonce_window_eq ?_ h1 h2
    simp [u16be]
  · rw [p002_build_split v r1 h1, p002_build_split v r2 h2]
    refine nonce_window_eq ?_ h1 h2
    simp [u16be]

/-- Witness for C9 at two concrete 32-byte randoms. -/
theorem builders_random_window_spec_witness :
    (Ccs.buildClientHello (List.replicate 32 0)).length =
      (Ccs.buildClientHello (List.range 32)).length :=
  (builders_random_window_spec 771 (List.replicate 32 0) (List.range 32)
    (by decide) (by decide)).1.1
